import Mathlib

/-!
Verification development for the soccer-practice diagram compositor
(`src/image_composer.py`, `src/excel_generator.py`, `src/agent.py`).

Python's arbitrary-precision integers are modelled by `ℤ`, its float
arithmetic by exact arithmetic over `ℚ` (and over `ℝ` where the source
calls `math.sqrt` / trigonometric functions).  Python's `int()` cast on a
float truncates toward zero; it is modelled by `pyIntQ` / `pyIntR` below.
-/

/-- Truncation toward zero on rationals, the model of Python's `int()`
cast applied to a (nonnegative or negative) float value. -/
def pyIntQ (q : ℚ) : ℤ := if 0 ≤ q then ⌊q⌋ else ⌈q⌉

/-- Truncation toward zero on reals, the model of Python's `int()` cast,
used where the source value involves `math.sqrt` or trigonometry. -/
noncomputable def pyIntR (r : ℝ) : ℤ := if 0 ≤ r then ⌊r⌋ else ⌈r⌉

/-- Coordinate transform used throughout `compose_step_diagram_separate`
(source lines such as `from_x = int(from_pos.get("x", 0.5) * width)`):
relative coordinate times ground dimension, cast through Python `int()`. -/
def relToPixel (x : ℚ) (d : ℕ) : ℤ := pyIntQ (x * d)

/-- A line segment with integer pixel endpoints, as manipulated by
`_create_arrow_image` (`from_x, from_y, to_x, to_y`). -/
structure Seg where
  fx : ℤ
  fy : ℤ
  tx : ℤ
  ty : ℤ
deriving DecidableEq, Repr

/-- Squared Euclidean length of a segment.  Comparisons of (nonnegative)
lengths are stated on squares to stay in `ℤ`. -/
def sqLen (s : Seg) : ℤ := (s.tx - s.fx) ^ 2 + (s.ty - s.fy) ^ 2

/-- Arrow-shortening step of `_create_arrow_image` (source lines 236-243):
when `length_ratio < 1.0` both endpoints are pulled toward the midpoint of
the segment by the ratio and cast back through Python `int()`. -/
def shortenStep (s : Seg) (r : ℚ) : Seg :=
  if r < 1 then
    let cx : ℚ := (s.fx + s.tx) / 2
    let cy : ℚ := (s.fy + s.ty) / 2
    ⟨pyIntQ (cx + (s.fx - cx) * r), pyIntQ (cy + (s.fy - cy) * r),
     pyIntQ (cx + (s.tx - cx) * r), pyIntQ (cy + (s.ty - cy) * r)⟩
  else s

/-- Segment length `math.sqrt(dx*dx + dy*dy)` computed by the
perpendicular-offset step of `_create_arrow_image` (source line 249). -/
noncomputable def segLen (s : Seg) : ℝ :=
  Real.sqrt ((s.tx - s.fx : ℝ) * (s.tx - s.fx) + (s.ty - s.fy : ℝ) * (s.ty - s.fy))

/-- The x component `-dy / length` of the perpendicular unit vector
(source line 252). -/
noncomputable def perpX (s : Seg) : ℝ := -(s.ty - s.fy : ℝ) / segLen s

/-- The y component `dx / length` of the perpendicular unit vector
(source line 253). -/
noncomputable def perpY (s : Seg) : ℝ := (s.tx - s.fx : ℝ) / segLen s

/-- Perpendicular-offset step of `_create_arrow_image` (source lines
246-258): if the offset is nonzero and the segment has positive length,
translate both endpoints by `offset` along the perpendicular unit vector
and cast each coordinate back through Python `int()`. -/
noncomputable def offsetStep (s : Seg) (off : ℤ) : Seg :=
  if off = 0 then s
  else if 0 < segLen s then
    ⟨pyIntR (s.fx + perpX s * off), pyIntR (s.fy + perpY s * off),
     pyIntR (s.tx + perpX s * off), pyIntR (s.ty + perpY s * off)⟩
  else s

/-- Display-scale computation of `_add_separate_images`
(`src/excel_generator.py`, lines 198-214): fit the ground image's native
size `(W, H)` into the fixed 350x200 budget, preserving aspect ratio, and
return the single scale factor `display_width / ground_width`. -/
def displayScale (W H : ℕ) : ℚ :=
  let aspect : ℚ := (W : ℚ) / (H : ℚ)
  let dw1 : ℤ := if 350 < (W : ℤ) then 350 else (W : ℤ)
  let dh1 : ℤ := if 350 < (W : ℤ) then pyIntQ (350 / aspect) else (H : ℤ)
  let dw2 : ℤ := if 200 < dh1 then pyIntQ (200 * aspect) else dw1
  (dw2 : ℚ) / (W : ℚ)

/-- Drawing primitive issued by the arrow renderer into its transparent
canvas: a straight line stroke of a given width, or the filled triangular
arrow head. -/
inductive DrawOp where
  | line (x1 y1 x2 y2 w : ℤ)
  | polygon (p1 p2 p3 : ℤ × ℤ)
deriving DecidableEq, Repr

/-- Model of Python's `math.atan2(y, x)` via the complex argument; in
particular `atan2R 0 0 = 0`, matching `math.atan2(0.0, 0.0) == 0.0`. -/
noncomputable def atan2R (y x : ℝ) : ℝ := Complex.arg ⟨x, y⟩

/-- `_draw_arrow_head` (source lines 399-423): a filled triangle with
apex at the destination and two base corners swept back by ±30° from the
segment direction, their coordinates cast through `int()`. -/
noncomputable def headOp (x1 y1 x2 y2 size : ℤ) : DrawOp :=
  let ang := atan2R ((y2 - y1 : ℤ) : ℝ) ((x2 - x1 : ℤ) : ℝ)
  DrawOp.polygon (x2, y2)
    (pyIntR ((x2 : ℝ) - (size : ℝ) * Real.cos (ang - Real.pi / 6)),
     pyIntR ((y2 : ℝ) - (size : ℝ) * Real.sin (ang - Real.pi / 6)))
    (pyIntR ((x2 : ℝ) - (size : ℝ) * Real.cos (ang + Real.pi / 6)),
     pyIntR ((y2 : ℝ) - (size : ℝ) * Real.sin (ang + Real.pi / 6)))

/-- `_draw_dashed_line` (source lines 363-397): draw every even-indexed
dash of `dash_count` equal subdivisions of the segment; a zero-length
segment returns immediately and draws nothing. -/
noncomputable def dashOps (x1 y1 x2 y2 w dashLen : ℤ) : List DrawOp :=
  let dx := x2 - x1
  let dy := y2 - y1
  let distance := Real.sqrt ((dx : ℝ) * (dx : ℝ) + (dy : ℝ) * (dy : ℝ))
  if distance = 0 then []
  else
    let dc0 := pyIntR (distance / (dashLen : ℝ))
    let dc := if dc0 = 0 then 1 else dc0
    ((List.range dc.toNat).filter (fun i => i % 2 = 0)).map (fun i =>
      DrawOp.line (pyIntR ((x1 : ℝ) + (dx : ℝ) * ((i : ℝ) / (dc : ℝ))))
        (pyIntR ((y1 : ℝ) + (dy : ℝ) * ((i : ℝ) / (dc : ℝ))))
        (pyIntR ((x1 : ℝ) + (dx : ℝ) * min (((i : ℝ) + 1) / (dc : ℝ)) 1))
        (pyIntR ((y1 : ℝ) + (dy : ℝ) * min (((i : ℝ) + 1) / (dc : ℝ)) 1)) w)

/-- The transparent canvas built by `_create_arrow_image`: its pixel
size, styling, and the drawing operations issued into it. -/
structure ArrowImg where
  w : ℤ
  h : ℤ
  color : String
  dashed : Bool
  ops : List DrawOp

/-- `_create_arrow_image` (source lines 214-307): shorten the segment
toward its midpoint, apply the perpendicular offset, compute the padded
bounding box (25px padding, enforced 40x40 minimum), draw the dashed or
solid line and the size-18 arrow head in local canvas coordinates, and
return the canvas together with the pixel position of its center. -/
noncomputable def createArrowImage (fx fy tx ty : ℤ) (color : String)
    (dashed : Bool) (off : ℤ) (r : ℚ) : ArrowImg × ℤ × ℤ :=
  let s1 := shortenStep ⟨fx, fy, tx, ty⟩ r
  let s2 := offsetStep s1 off
  let minX := min s2.fx s2.tx - 25
  let minY := min s2.fy s2.ty - 25
  let maxX := max s2.fx s2.tx + 25
  let maxY := max s2.fy s2.ty + 25
  let imgW := max (maxX - minX) 40
  let imgH := max (maxY - minY) 40
  let lfx := s2.fx - minX
  let lfy := s2.fy - minY
  let ltx := s2.tx - minX
  let lty := s2.ty - minY
  let ops :=
    (if dashed then dashOps lfx lfy ltx lty 5 15
     else [DrawOp.line lfx lfy ltx lty 5]) ++ [headOp lfx lfy ltx lty 18]
  (⟨imgW, imgH, color, dashed, ops⟩, minX + imgW.ediv 2, minY + imgH.ediv 2)

/-- A position dictionary from the plan JSON; either coordinate may be
absent, in which case `pos.get("x"/"y", 0.5)` defaults it to 0.5. -/
structure PosJ where
  x : Option ℚ
  y : Option ℚ
deriving DecidableEq, Repr

/-- A player entry of a step: `id` and `position` may each be absent.
(The `role` field is never read by the compositor.) -/
structure PlayerJ where
  id : Option String
  position : Option PosJ
deriving DecidableEq, Repr

/-- A player movement: `from_player` (read with default "") and
`to_position` (read with default of an empty dict). -/
structure MoveJ where
  from_player : Option String
  to_position : Option PosJ
deriving DecidableEq, Repr

/-- A ball movement: its `from` and `to` position dicts, each possibly
absent (read with default of an empty dict). -/
structure BallJ where
  src : Option PosJ
  dst : Option PosJ
deriving DecidableEq, Repr

/-- A step dictionary: each of the three collections may be absent and is
read with `step.get(..., [])`. -/
structure StepJ where
  players : Option (List PlayerJ)
  movements : Option (List MoveJ)
  ball_movements : Option (List BallJ)
deriving DecidableEq, Repr

/-- Both coordinates of a possibly-absent position dict, with the 0.5
defaults of `pos.get("x", 0.5)` / `pos.get("y", 0.5)`. -/
def posXY (p : Option PosJ) : ℚ × ℚ :=
  match p with
  | none => (1 / 2, 1 / 2)
  | some q => (q.x.getD (1 / 2), q.y.getD (1 / 2))

/-- The dict comprehension `{p["id"]: p["position"] for p in players}`
(source line 162): hard indexing, so a player entry lacking "id" or
"position" raises a KeyError instead of being defaulted. -/
def buildPositions : List PlayerJ → Except String (List (String × PosJ))
  | [] => .ok []
  | p :: rest =>
    match p.id, p.position with
    | some i, some pos => (buildPositions rest).map (fun l => (i, pos) :: l)
    | _, _ => .error "KeyError"

/-- Python dict lookup over the association list: the LAST binding of a
key wins, as in a dict comprehension with duplicate keys. -/
def dictLookup (l : List (String × PosJ)) (k : String) : Option PosJ :=
  l.foldl (fun acc kv => if kv.1 = k then some kv.2 else acc) none

/-- Styling tag of an arrow overlay, the `"type"` field of the returned
arrow dicts. -/
inductive ArrowType where
  | ball
  | player
deriving DecidableEq, Repr

/-- One arrow overlay of the bundle: its rendered image and the anchor
(center) position in ground-pixel coordinates, plus the type tag. -/
structure ArrowOverlay where
  img : ArrowImg
  x : ℤ
  y : ℤ
  ty : ArrowType

/-- One labeled player overlay of the bundle: the anchor (center)
position in ground-pixel coordinates and the label text. -/
structure PlayerOverlay where
  x : ℤ
  y : ℤ
  label : String
deriving DecidableEq, Repr

/-- The DiagramBundle returned by `compose_step_diagram_separate`: the
copied ground's pixel size plus the player and arrow overlay lists. -/
structure Bundle where
  groundW : ℕ
  groundH : ℕ
  players : List PlayerOverlay
  arrows : List ArrowOverlay

/-- Body of the ball-movement loop (source lines 139-158): dashed orange
arrow with perpendicular offset +6, at the transformed endpoints. -/
noncomputable def ballArrowOf (W H : ℕ) (m : BallJ) : ArrowOverlay :=
  let fp := posXY m.src
  let tp := posXY m.dst
  let a := createArrowImage (relToPixel fp.1 W) (relToPixel fp.2 H)
    (relToPixel tp.1 W) (relToPixel tp.2 H) "orange" true 6 (3 / 4)
  ArrowOverlay.mk a.1 a.2.1 a.2.2 ArrowType.ball

/-- Body of the player-movement loop (source lines 164-185): a solid
blue arrow with perpendicular offset -6 when the movement's origin player
resolves in the positions dict, nothing otherwise. -/
noncomputable def playerArrowOf (W H : ℕ) (posMap : List (String × PosJ))
    (m : MoveJ) : Option ArrowOverlay :=
  (dictLookup posMap (m.from_player.getD "")).map (fun pos =>
    let fp := posXY (some pos)
    let tp := posXY m.to_position
    let a := createArrowImage (relToPixel fp.1 W) (relToPixel fp.2 H)
      (relToPixel tp.1 W) (relToPixel tp.2 H) "blue" false (-6) (3 / 4)
    ArrowOverlay.mk a.1 a.2.1 a.2.2 ArrowType.player)

/-- Body of the player loop (source lines 190-205): the labeled overlay
anchored at the transformed position. -/
def playerOverlayOf (W H : ℕ) (p : PlayerJ) : PlayerOverlay :=
  let pp := posXY p.position
  PlayerOverlay.mk (relToPixel pp.1 W) (relToPixel pp.2 H) (p.id.getD "")

/-- `compose_step_diagram_separate` (source lines 117-212) at the data
level: copy the clean ground (its size is the bundle's coordinate space),
render one dashed orange arrow per ball movement, build the positions
dict (which raises KeyError on a malformed player entry), render one
solid blue arrow per RESOLVABLE player movement — unresolvable ones are
silently skipped — and one labeled overlay per player. -/
noncomputable def composeStepSeparate (W H : ℕ) (step : StepJ) : Except String Bundle :=
  let ballArrows := (step.ball_movements.getD []).map (ballArrowOf W H)
  match buildPositions (step.players.getD []) with
  | .error e => .error e
  | .ok posMap =>
      .ok (Bundle.mk W H ((step.players.getD []).map (playerOverlayOf W H))
        (ballArrows ++ (step.movements.getD []).filterMap (playerArrowOf W H posMap)))

/-- Anchor and label of every player overlay of a bundle, in order. -/
def playerAnchors (b : Bundle) : List (ℤ × ℤ × String) :=
  b.players.map (fun p => (p.x, p.y, p.label))

/-- Type tag and anchor of every arrow overlay of a bundle, in order. -/
def arrowAnchors (b : Bundle) : List (ArrowType × ℤ × ℤ) :=
  b.arrows.map (fun a => (a.ty, a.x, a.y))

/-- The end-to-end scenario step: one player "A" at (0.5, 0.5), one
player movement from "A" to (0.7, 0.5), one ball movement from
(0.5, 0.5) to (0.3, 0.5). -/
def stepC1 : StepJ :=
  ⟨some [⟨some "A", some ⟨some (1 / 2), some (1 / 2)⟩⟩],
   some [⟨some "A", some ⟨some (7 / 10), some (1 / 2)⟩⟩],
   some [⟨some ⟨some (1 / 2), some (1 / 2)⟩, some ⟨some (3 / 10), some (1 / 2)⟩⟩]⟩

/-- Abstract bitmap contents of one PIL image in the heap model of the
compositor.  The frame claim is about which heap cells are read and
written, so pixel data is abstracted to a list of integers recording what
was drawn into the image. -/
structure HImg where
  data : List ℤ
deriving DecidableEq, Repr

/-- The heap of live PIL images, addressed by index. -/
abbrev Heap := List HImg

/-- Allocation (`Image.new`, `Image.copy`): the fresh image is appended,
its reference is the previous length. -/
def halloc (h : Heap) (v : HImg) : Heap × ℕ := (h ++ [v], h.length)

/-- Dereference an image. -/
def hget (h : Heap) (i : ℕ) : HImg := h.getD i ⟨[]⟩

/-- In-place mutation (drawing into an image, pasting onto a canvas). -/
def hset (h : Heap) (i : ℕ) (v : HImg) : Heap := h.set i v

/-- Heap effect of `_create_arrow_image`: allocate a fresh transparent
canvas and draw the arrow into it (in-place write to the fresh cell
only); no existing image is touched. -/
def createArrowHeap (h : Heap) (ps : List ℤ) : Heap × ℕ :=
  let p := halloc h ⟨[]⟩
  (hset p.1 p.2 ⟨ps⟩, p.2)

/-- Heap effect of `_create_labeled_player`: allocate a fresh canvas,
paste the person image into it (reading the shared person cell `pr`,
writing only the fresh canvas) and draw the label. -/
def labeledPlayerHeap (h : Heap) (pr : ℕ) (label : String) : Heap × ℕ :=
  let p := halloc h ⟨[]⟩
  (hset p.1 p.2 ⟨(hget p.1 pr).data ++ [(label.length : ℤ)]⟩, p.2)

/-- Heap effect of `compose_step_diagram_separate`: copy the clean ground
(`self.ground_image.copy()`, a fresh allocation), allocate and draw one
arrow image per ball movement and per resolvable player movement, and one
labeled canvas per player (pasting from the shared person image); return
the references of the bundle.  The stored ground at `gr` and person at
`pr` are only ever read. -/
def composeStepHeap (h : Heap) (gr pr : ℕ) (W H : ℕ) (step : StepJ) :
    Heap × Except String (ℕ × List ℕ × List ℕ) :=
  let g := halloc h (hget h gr)
  let ball := (step.ball_movements.getD []).foldl
    (fun acc m =>
      let fp := posXY m.src
      let tp := posXY m.dst
      let r := createArrowHeap acc.1
        [relToPixel fp.1 W, relToPixel fp.2 H, relToPixel tp.1 W, relToPixel tp.2 H, 6]
      (r.1, acc.2 ++ [r.2]))
    (g.1, ([] : List ℕ))
  match buildPositions (step.players.getD []) with
  | .error e => (ball.1, .error e)
  | .ok posMap =>
    let pa := (step.movements.getD []).foldl
      (fun acc m =>
        match dictLookup posMap (m.from_player.getD "") with
        | none => acc
        | some pos =>
          let fp := posXY (some pos)
          let tp := posXY m.to_position
          let r := createArrowHeap acc.1
            [relToPixel fp.1 W, relToPixel fp.2 H, relToPixel tp.1 W, relToPixel tp.2 H, -6]
          (r.1, acc.2 ++ [r.2]))
      (ball.1, ([] : List ℕ))
    let pls := (step.players.getD []).foldl
      (fun acc p =>
        let r := labeledPlayerHeap acc.1 pr (p.id.getD "")
        (r.1, acc.2 ++ [r.2]))
      (pa.1, ([] : List ℕ))
    (pls.1, .ok (g.2, ball.2 ++ pa.2, pls.2))

/-- Heap evolution invariant: the heap has at least `n` cells and every
cell below `n` is unchanged. -/
def Grows (n : ℕ) (h h2 : Heap) : Prop :=
  n ≤ h2.length ∧ ∀ i, i < n → h2[i]? = h[i]?

/-- Bookkeeping state of the Excel generator: the temp directory's
contents and the generator's recorded `temp_files` list. -/
structure GenSt where
  fs : List String
  temp_files : List String
deriving DecidableEq, Repr

/-- `_save_temp_image` (`src/excel_generator.py`, lines 304-322): write
the raster to the temp directory and record its path in
`self.temp_files`. -/
def saveTempImage (st : GenSt) (name : String) : GenSt :=
  ⟨st.fs ++ [name], st.temp_files ++ [name]⟩

/-- `cleanup` (lines 338-349): `os.remove` every recorded file, then
clear the list. -/
def cleanupGen (st : GenSt) : GenSt :=
  ⟨st.fs.filter (fun f => !(st.temp_files.contains f)), []⟩

/-- Temp-file effect of `_add_separate_images` (lines 185-302): one
ground raster, one per player overlay, one per arrow overlay. -/
def addSeparateImagesFiles (st : GenSt) (stepIdx : ℕ) (b : Bundle) : GenSt :=
  let st1 := saveTempImage st ("step_" ++ toString stepIdx ++ "_ground.png")
  let st2 := (b.players.foldl (fun (acc : GenSt × ℕ) _p =>
      (saveTempImage acc.1
        ("step_" ++ toString stepIdx ++ "_player_" ++ toString acc.2 ++ ".png"),
       acc.2 + 1)) (st1, 0)).1
  (b.arrows.foldl (fun (acc : GenSt × ℕ) _a =>
      (saveTempImage acc.1
        ("step_" ++ toString stepIdx ++ "_arrow_" ++ toString acc.2 ++ ".png"),
       acc.2 + 1)) (st2, 0)).1

/-- Temp-file effect of `create_practice_sheet` (lines 24-183): the
separate images of each step's bundle, in step order. -/
def createPracticeSheet (st : GenSt) (bundles : List Bundle) : GenSt :=
  (bundles.foldl (fun (acc : GenSt × ℕ) b =>
    (addSeparateImagesFiles acc.1 acc.2 b, acc.2 + 1)) (st, 0)).1

/-- `PracticeMenuAgent.generate_practice_menu` (`src/agent.py`, lines
25-66): obtain the plan, compose every step, build the sheet (recording
temp rasters), save the workbook, and only then call
`self.excel_generator.cleanup()`.  There is NO try/finally: an exception
at any stage propagates and the cleanup call is skipped.  The two
external effects — the LLM call and the workbook save — are modelled by
the `plan` argument and the `saveOk` flag. -/
noncomputable def generatePracticeMenu (st : GenSt)
    (plan : Except String (List StepJ)) (W H : ℕ) (saveOk : Bool) :
    GenSt × Except String String :=
  match plan with
  | .error e => (st, .error e)
  | .ok steps =>
    match steps.mapM (composeStepSeparate W H) with
    | .error e => (st, .error e)
    | .ok bundles =>
      let st1 := createPracticeSheet st bundles
      if saveOk then (cleanupGen st1, .ok "saved")
      else (st1, .error "save failed")

theorem pyIntQ_intCast (n : ℤ) : pyIntQ n = n := by
  unfold pyIntQ
  split <;> simp

theorem pyIntR_intCast (n : ℤ) : pyIntR n = n := by
  unfold pyIntR
  split <;> simp

theorem pyIntQ_mono {a b : ℚ} (h : a ≤ b) : pyIntQ a ≤ pyIntQ b := by
  unfold pyIntQ
  rcases le_or_lt 0 a with h0a | h0a
  · rw [if_pos h0a, if_pos (le_trans h0a h)]
    exact Int.floor_mono h
  · rcases le_or_lt 0 b with h0b | h0b
    · rw [if_neg (not_le.mpr h0a), if_pos h0b]
      have hc0 : ⌈a⌉ ≤ 0 := Int.ceil_le.mpr (by exact_mod_cast le_of_lt h0a)
      have hf0 : 0 ≤ ⌊b⌋ := Int.floor_nonneg.mpr h0b
      omega
    · rw [if_neg (not_le.mpr h0a), if_neg (not_le.mpr h0b)]
      exact Int.ceil_mono h

theorem pyIntQ_le_self {q : ℚ} (h : 0 ≤ q) : (pyIntQ q : ℚ) ≤ q := by
  rw [pyIntQ, if_pos h]
  exact Int.floor_le q

/-- One-coordinate analysis of the shortening step for an increasing pair
`f < t`: the shortened pair is still ordered and its span loses at least
one pixel to the `int()` truncation. -/
theorem shorten1D_lt (f t : ℤ) (r : ℚ) (hf : f < t) (h0 : 0 ≤ r) (h1 : r < 1) :
    0 ≤ pyIntQ ((↑f + ↑t) / 2 + (↑t - (↑f + ↑t) / 2) * r)
        - pyIntQ ((↑f + ↑t) / 2 + (↑f - (↑f + ↑t) / 2) * r) ∧
    pyIntQ ((↑f + ↑t) / 2 + (↑t - (↑f + ↑t) / 2) * r)
        - pyIntQ ((↑f + ↑t) / 2 + (↑f - (↑f + ↑t) / 2) * r) ≤ t - f - 1 := by
  set c : ℚ := ((f : ℚ) + (t : ℚ)) / 2 with hc
  set a : ℚ := c + ((f : ℚ) - c) * r with ha
  set b : ℚ := c + ((t : ℚ) - c) * r with hb
  have hfQ : (f : ℚ) < (t : ℚ) := by exact_mod_cast hf
  have hfa : (f : ℚ) < a := by
    have hd : a - (f : ℚ) = ((t : ℚ) - (f : ℚ)) / 2 * (1 - r) := by
      rw [ha, hc]; ring
    nlinarith
  have hbt : b < (t : ℚ) := by
    have hd : (t : ℚ) - b = ((t : ℚ) - (f : ℚ)) / 2 * (1 - r) := by
      rw [hb, hc]; ring
    nlinarith
  have hab : a ≤ b := by
    have hd : b - a = ((t : ℚ) - (f : ℚ)) * r := by
      rw [ha, hb]; ring
    nlinarith
  refine ⟨by have := pyIntQ_mono hab; omega, ?_⟩
  rcases le_or_lt 0 b with h0b | h0b
  · have hpb : pyIntQ b ≤ t - 1 := by
      rw [pyIntQ, if_pos h0b]
      have hlt : ⌊b⌋ < t := Int.floor_lt.mpr (by exact_mod_cast hbt)
      omega
    rcases le_or_lt 0 a with h0a | h0a
    · have hpa : f ≤ pyIntQ a := by
        rw [pyIntQ, if_pos h0a]
        exact Int.le_floor.mpr (le_of_lt (by exact_mod_cast hfa))
      omega
    · have hpa : f + 1 ≤ pyIntQ a := by
        rw [pyIntQ, if_neg (not_le.mpr h0a)]
        have hlt : f < ⌈a⌉ := Int.lt_ceil.mpr (by exact_mod_cast hfa)
        omega
      omega
  · have h0a : a < 0 := lt_of_le_of_lt hab h0b
    have hpb : pyIntQ b ≤ t := by
      rw [pyIntQ, if_neg (not_le.mpr h0b)]
      exact Int.ceil_le.mpr (le_of_lt (by exact_mod_cast hbt))
    have hpa : f + 1 ≤ pyIntQ a := by
      rw [pyIntQ, if_neg (not_le.mpr h0a)]
      have hlt : f < ⌈a⌉ := Int.lt_ceil.mpr (by exact_mod_cast hfa)
      omega
    omega

/-- Squared-span strict decrease of one coordinate of the shortening step,
for distinct coordinates, in either order. -/
theorem shortenCoord_sq_lt (f t : ℤ) (r : ℚ) (h0 : 0 ≤ r) (h1 : r < 1) (hne : f ≠ t) :
    (pyIntQ ((↑f + ↑t) / 2 + (↑t - (↑f + ↑t) / 2) * r)
      - pyIntQ ((↑f + ↑t) / 2 + (↑f - (↑f + ↑t) / 2) * r)) ^ 2 < (t - f) ^ 2 := by
  rcases hne.lt_or_lt with h | h
  · obtain ⟨hlo, hhi⟩ := shorten1D_lt f t r h h0 h1
    nlinarith
  · obtain ⟨hlo, hhi⟩ := shorten1D_lt t f r h h0 h1
    have hswap : ((t : ℚ) + (f : ℚ)) / 2 = ((f : ℚ) + (t : ℚ)) / 2 := by ring
    rw [hswap] at hlo hhi
    nlinarith

/-- Claim C2, counterexample: the coordinate transform truncates rather
than rounds.  At relative coordinate 27/32 (exactly representable as a
float) on a 1000-pixel-wide ground, the code produces pixel 843 while
round-to-nearest gives 844. -/
theorem relToPixel_truncates_not_rounds :
    relToPixel (27 / 32) 1000 = 843 ∧ round ((27 / 32 : ℚ) * 1000) = 844 ∧
    (843 : ℤ) ≠ 844 := by
  refine ⟨by norm_num [relToPixel, pyIntQ], ?_, by norm_num⟩
  rw [round_eq]; norm_num

/-- Claim C2 (amended): for every relative coordinate in `[0, 1]` the
transform applied by `compose_step_diagram_separate` equals the FLOOR of
`relative * ground_dimension` (Python's `int()` truncation, which agrees
with floor on nonnegative values), not round-to-nearest. -/
theorem relToPixel_eq_floor (x : ℚ) (W : ℕ) (h0 : 0 ≤ x) (_h1 : x ≤ 1) :
    relToPixel x W = ⌊x * (W : ℚ)⌋ := by
  unfold relToPixel pyIntQ
  rw [if_pos (mul_nonneg h0 (by positivity))]

/-- Witness for `relToPixel_eq_floor` at the concrete input 27/32, 1000. -/
theorem relToPixel_eq_floor_witness :
    (0 : ℚ) ≤ 27 / 32 ∧ (27 / 32 : ℚ) ≤ 1 ∧
    relToPixel (27 / 32) 1000 = ⌊(27 / 32 : ℚ) * (1000 : ℚ)⌋ :=
  ⟨by norm_num, by norm_num, relToPixel_eq_floor (27 / 32) 1000 (by norm_num) (by norm_num)⟩

/-- Claim C5, counterexample: at ratio 3/4 < 1 a zero-length segment is
mapped to itself, so its length is NOT strictly reduced. -/
theorem shortenStep_zero_length_not_strict :
    shortenStep ⟨5, 5, 5, 5⟩ (3 / 4) = ⟨5, 5, 5, 5⟩ ∧
    ¬ sqLen (shortenStep ⟨5, 5, 5, 5⟩ (3 / 4)) < sqLen ⟨5, 5, 5, 5⟩ := by
  have h : shortenStep ⟨5, 5, 5, 5⟩ (3 / 4) = ⟨5, 5, 5, 5⟩ := by
    simp only [shortenStep]
    norm_num [pyIntQ]
  exact ⟨h, by rw [h]; omega⟩

/-- Claim C5 (amended): the shortening step at ratio 1.0 is the identity
(so re-application is the identity), and at any ratio in `[0, 1)` it
strictly reduces the (squared) segment length for every segment with
DISTINCT endpoints; a zero-length segment is left unchanged, which is the
one family of inputs on which the original claim fails. -/
theorem shortenStep_one_id_and_strict_decrease (s : Seg) (r : ℚ) :
    shortenStep s 1 = s ∧
    (0 ≤ r → r < 1 → (s.fx, s.fy) ≠ (s.tx, s.ty) →
      sqLen (shortenStep s r) < sqLen s) := by
  constructor
  · simp [shortenStep]
  · intro h0 h1 hne
    have hne' : ¬(s.fx = s.tx ∧ s.fy = s.ty) := by
      rintro ⟨he1, he2⟩
      exact hne (by rw [he1, he2])
    have hs : shortenStep s r =
        ⟨pyIntQ ((↑s.fx + ↑s.tx) / 2 + (↑s.fx - (↑s.fx + ↑s.tx) / 2) * r),
         pyIntQ ((↑s.fy + ↑s.ty) / 2 + (↑s.fy - (↑s.fy + ↑s.ty) / 2) * r),
         pyIntQ ((↑s.fx + ↑s.tx) / 2 + (↑s.tx - (↑s.fx + ↑s.tx) / 2) * r),
         pyIntQ ((↑s.fy + ↑s.ty) / 2 + (↑s.ty - (↑s.fy + ↑s.ty) / 2) * r)⟩ := by
      simp only [shortenStep, if_pos h1]
    rw [hs]
    simp only [sqLen]
    by_cases hx : s.fx = s.tx
    · by_cases hy : s.fy = s.ty
      · exact absurd ⟨hx, hy⟩ hne'
      · have hy2 := shortenCoord_sq_lt s.fy s.ty r h0 h1 hy
        rw [hx]
        simp only [sub_self]
        nlinarith [hy2]
    · have hx2 := shortenCoord_sq_lt s.fx s.tx r h0 h1 hx
      by_cases hy : s.fy = s.ty
      · rw [hy]
        simp only [sub_self]
        nlinarith [hx2]
      · have hy2 := shortenCoord_sq_lt s.fy s.ty r h0 h1 hy
        nlinarith [hx2, hy2]

/-- Witness for `shortenStep_one_id_and_strict_decrease` on the segment
(0,0)-(10,0) at ratio 3/4. -/
theorem shortenStep_one_id_and_strict_decrease_witness :
    shortenStep ⟨0, 0, 10, 0⟩ 1 = ⟨0, 0, 10, 0⟩ ∧
    ((0 : ℚ) ≤ 3 / 4 ∧ (3 / 4 : ℚ) < 1 ∧
      ((0 : ℤ), (0 : ℤ)) ≠ ((10 : ℤ), (0 : ℤ))) ∧
    sqLen (shortenStep ⟨0, 0, 10, 0⟩ (3 / 4)) < sqLen ⟨0, 0, 10, 0⟩ :=
  ⟨(shortenStep_one_id_and_strict_decrease ⟨0, 0, 10, 0⟩ (3 / 4)).1,
   ⟨by norm_num, by norm_num, by decide⟩,
   (shortenStep_one_id_and_strict_decrease ⟨0, 0, 10, 0⟩ (3 / 4)).2
     (by norm_num) (by norm_num) (by decide)⟩

/-- Claim C6: the display-scale computation of `_add_separate_images`
never upscales: the scale is at most 1 whenever the native size exceeds
the 350x200 budget, and exactly 1 when the native size already fits. -/
theorem displayScale_shrink_only (W H : ℕ) (hW : 0 < W) (hH : 0 < H) :
    ((350 < W ∨ 200 < H) → displayScale W H ≤ 1) ∧
    (W ≤ 350 → H ≤ 200 → displayScale W H = 1) := by
  have hWQ : (0 : ℚ) < (W : ℚ) := by exact_mod_cast hW
  have hHQ : (0 : ℚ) < (H : ℚ) := by exact_mod_cast hH
  constructor
  · intro hor
    by_cases h350 : 350 < (W : ℤ)
    · simp only [displayScale, if_pos h350]
      by_cases h200 : 200 < pyIntQ (350 / ((W : ℚ) / (H : ℚ)))
      · rw [if_pos h200, div_le_one hWQ]
        have hnn : (0 : ℚ) ≤ 200 * ((W : ℚ) / (H : ℚ)) := by positivity
        have hub : (pyIntQ (200 * ((W : ℚ) / (H : ℚ))) : ℚ) ≤ 200 * ((W : ℚ) / (H : ℚ)) :=
          pyIntQ_le_self hnn
        have h350Q : (350 : ℚ) < (W : ℚ) := by exact_mod_cast h350
        have hH200 : (200 : ℚ) < (H : ℚ) := by
          have hcast : (200 : ℚ) < (pyIntQ (350 / ((W : ℚ) / (H : ℚ))) : ℚ) := by
            exact_mod_cast h200
          have hub2 : (pyIntQ (350 / ((W : ℚ) / (H : ℚ))) : ℚ) ≤ 350 / ((W : ℚ) / (H : ℚ)) :=
            pyIntQ_le_self (by positivity)
          have hlt : (200 : ℚ) < 350 * (H : ℚ) / (W : ℚ) := by
            have hrw : (350 : ℚ) / ((W : ℚ) / (H : ℚ)) = 350 * (H : ℚ) / (W : ℚ) := by
              field_simp
            rw [hrw] at hub2
            linarith
          rw [lt_div_iff₀ hWQ] at hlt
          nlinarith
        have hle : 200 * ((W : ℚ) / (H : ℚ)) ≤ (W : ℚ) := by
          rw [← mul_div_assoc, div_le_iff₀ hHQ]
          nlinarith
        linarith
      · rw [if_neg h200, div_le_one hWQ]
        have h350Q : (350 : ℚ) ≤ (W : ℚ) := by
          have : (350 : ℚ) < (W : ℚ) := by exact_mod_cast h350
          linarith
        push_cast
        linarith
    · simp only [displayScale, if_neg h350]
      have hWle : W ≤ 350 := by omega
      have hHgt : 200 < H := by
        rcases hor with hc | hc
        · omega
        · exact hc
      have h200 : 200 < (H : ℤ) := by exact_mod_cast hHgt
      rw [if_pos h200, div_le_one hWQ]
      have hnn : (0 : ℚ) ≤ 200 * ((W : ℚ) / (H : ℚ)) := by positivity
      have hub : (pyIntQ (200 * ((W : ℚ) / (H : ℚ))) : ℚ) ≤ 200 * ((W : ℚ) / (H : ℚ)) :=
        pyIntQ_le_self hnn
      have hH200 : (200 : ℚ) < (H : ℚ) := by exact_mod_cast hHgt
      have hle : 200 * ((W : ℚ) / (H : ℚ)) ≤ (W : ℚ) := by
        rw [← mul_div_assoc, div_le_iff₀ hHQ]
        nlinarith
      linarith
  · intro hWle hHle
    have h350 : ¬ 350 < (W : ℤ) := by exact_mod_cast not_lt.mpr (by exact_mod_cast hWle)
    simp only [displayScale, if_neg h350]
    have h200 : ¬ 200 < (H : ℤ) := by exact_mod_cast not_lt.mpr (by exact_mod_cast hHle)
    rw [if_neg h200]
    push_cast
    exact div_self (ne_of_gt hWQ)

/-- Witness for `displayScale_shrink_only` at the 1000x600 ground used in
the end-to-end scenario. -/
theorem displayScale_shrink_only_witness :
    0 < 1000 ∧ 0 < 600 ∧
    ((350 < 1000 ∨ 200 < 600) → displayScale 1000 600 ≤ 1) ∧
    (1000 ≤ 350 → 600 ≤ 200 → displayScale 1000 600 = 1) :=
  ⟨by norm_num, by norm_num,
   (displayScale_shrink_only 1000 600 (by norm_num) (by norm_num)).1,
   (displayScale_shrink_only 1000 600 (by norm_num) (by norm_num)).2⟩

theorem pyIntR_nonneg_eq {r : ℝ} (h : 0 ≤ r) : pyIntR r = ⌊r⌋ := if_pos h

theorem pyIntR_neg_eq {r : ℝ} (h : r < 0) : pyIntR r = ⌈r⌉ := if_neg (not_le.mpr h)

/-- A segment with distinct endpoints has positive length. -/
theorem segLen_pos {s : Seg} (hne : (s.fx, s.fy) ≠ (s.tx, s.ty)) : 0 < segLen s := by
  apply Real.sqrt_pos.mpr
  have h : s.fx ≠ s.tx ∨ s.fy ≠ s.ty := by
    by_contra hc
    push_neg at hc
    exact hne (by rw [hc.1, hc.2])
  rcases h with h | h
  · have hdx : ((s.tx : ℝ) - (s.fx : ℝ)) ≠ 0 := sub_ne_zero.mpr (by exact_mod_cast h.symm)
    nlinarith [mul_self_pos.mpr hdx, mul_self_nonneg ((s.ty : ℝ) - (s.fy : ℝ))]
  · have hdy : ((s.ty : ℝ) - (s.fy : ℝ)) ≠ 0 := sub_ne_zero.mpr (by exact_mod_cast h.symm)
    nlinarith [mul_self_pos.mpr hdy, mul_self_nonneg ((s.tx : ℝ) - (s.fx : ℝ))]

theorem segLen_mul_self {s : Seg} :
    segLen s * segLen s =
      ((s.tx : ℝ) - (s.fx : ℝ)) * ((s.tx : ℝ) - (s.fx : ℝ))
        + ((s.ty : ℝ) - (s.fy : ℝ)) * ((s.ty : ℝ) - (s.fy : ℝ)) := by
  rw [segLen]
  have hnn : (0 : ℝ) ≤ ((s.tx : ℝ) - (s.fx : ℝ)) * ((s.tx : ℝ) - (s.fx : ℝ))
      + ((s.ty : ℝ) - (s.fy : ℝ)) * ((s.ty : ℝ) - (s.fy : ℝ)) := by
    nlinarith [mul_self_nonneg ((s.tx : ℝ) - (s.fx : ℝ)),
      mul_self_nonneg ((s.ty : ℝ) - (s.fy : ℝ))]
  exact Real.mul_self_sqrt hnn

theorem abs_perpX_le_one {s : Seg} (hp : 0 < segLen s) : |perpX s| ≤ 1 := by
  rw [perpX, abs_div, abs_neg, abs_of_pos hp]
  apply div_le_one_of_le₀ _ (le_of_lt hp)
  have h1 : |(s.ty : ℝ) - (s.fy : ℝ)| =
      Real.sqrt (((s.ty : ℝ) - (s.fy : ℝ)) ^ 2) := (Real.sqrt_sq_eq_abs _).symm
  rw [h1, segLen]
  apply Real.sqrt_le_sqrt
  nlinarith [mul_self_nonneg ((s.tx : ℝ) - (s.fx : ℝ))]

theorem abs_perpY_le_one {s : Seg} (hp : 0 < segLen s) : |perpY s| ≤ 1 := by
  rw [perpY, abs_div, abs_of_pos hp]
  apply div_le_one_of_le₀ _ (le_of_lt hp)
  have h1 : |(s.tx : ℝ) - (s.fx : ℝ)| =
      Real.sqrt (((s.tx : ℝ) - (s.fx : ℝ)) ^ 2) := (Real.sqrt_sq_eq_abs _).symm
  rw [h1, segLen]
  apply Real.sqrt_le_sqrt
  nlinarith [mul_self_nonneg ((s.ty : ℝ) - (s.fy : ℝ))]

/-- A coordinate at least `|off|` stays nonnegative after adding the
perpendicular displacement `p * off` with `|p| ≤ 1`. -/
theorem add_perp_nonneg {p : ℝ} (hp : |p| ≤ 1) (off n : ℤ) (hb : |off| ≤ n) :
    (0 : ℝ) ≤ (n : ℝ) + p * (off : ℝ) := by
  have h1 : |p * (off : ℝ)| ≤ |(off : ℝ)| := by
    rw [abs_mul]
    nlinarith [abs_nonneg ((off : ℝ))]
  have h2 : -|(off : ℝ)| ≤ p * (off : ℝ) := by
    have h3 := neg_abs_le (p * (off : ℝ))
    linarith
  have h4 : |(off : ℝ)| = ((|off| : ℤ) : ℝ) := by
    rw [Int.cast_abs]
  have h5 : ((|off| : ℤ) : ℝ) ≤ (n : ℝ) := by exact_mod_cast hb
  linarith

/-- Claim C4, counterexample: the perpendicular-offset step (including
its `int()` casts) does NOT always preserve segment length.  On the
segment (0,0)-(4,3) with offset 1 the truncation toward zero moves the
two endpoints by different integer vectors: the result is (0,0)-(3,3),
whose squared length 18 differs from the original 25. -/
theorem offsetStep_changes_length :
    offsetStep ⟨0, 0, 4, 3⟩ 1 = ⟨0, 0, 3, 3⟩ ∧
    sqLen ⟨0, 0, 3, 3⟩ ≠ sqLen ⟨0, 0, 4, 3⟩ := by
  have hL : segLen ⟨0, 0, 4, 3⟩ = 5 := by
    rw [segLen]
    push_cast
    norm_num
    rw [show (25 : ℝ) = 5 ^ 2 by norm_num]
    exact Real.sqrt_sq (by norm_num)
  have hpx : perpX ⟨0, 0, 4, 3⟩ = -(3 / 5 : ℝ) := by
    rw [perpX, hL]
    push_cast
    norm_num
  have hpy : perpY ⟨0, 0, 4, 3⟩ = (4 / 5 : ℝ) := by
    rw [perpY, hL]
    push_cast
    norm_num
  constructor
  · rw [offsetStep, if_neg (by norm_num : ¬(1 : ℤ) = 0),
      if_pos (by rw [hL]; norm_num : (0 : ℝ) < segLen ⟨0, 0, 4, 3⟩)]
    rw [hpx, hpy]
    norm_num [pyIntR, Seg.mk.injEq]
  · simp [sqLen]

/-- Claim C4 (amended): the pre-truncation displacement of the
perpendicular-offset step is the same vector `(perpX*off, perpY*off)` for
both endpoints, of magnitude `|off|` (the perpendicular vector is a unit
vector); and whenever every endpoint coordinate is at least `|off|` (so
each offset coordinate stays nonnegative and Python's `int()` is a
floor), both endpoints translate by the same INTEGER vector, hence the
offset segment has exactly the original length and direction.  Without
that margin the truncation toward zero can move the endpoints unequally
(see the counterexample). -/
theorem offsetStep_uniform_translation (s : Seg) (off : ℤ)
    (hne : (s.fx, s.fy) ≠ (s.tx, s.ty)) (hoff : off ≠ 0)
    (hfx : |off| ≤ s.fx) (hfy : |off| ≤ s.fy) (htx : |off| ≤ s.tx) (hty : |off| ≤ s.ty) :
    offsetStep s off =
      ⟨s.fx + ⌊perpX s * (off : ℝ)⌋, s.fy + ⌊perpY s * (off : ℝ)⌋,
       s.tx + ⌊perpX s * (off : ℝ)⌋, s.ty + ⌊perpY s * (off : ℝ)⌋⟩ ∧
    perpX s ^ 2 + perpY s ^ 2 = 1 ∧
    (offsetStep s off).tx - (offsetStep s off).fx = s.tx - s.fx ∧
    (offsetStep s off).ty - (offsetStep s off).fy = s.ty - s.fy := by
  have hp : 0 < segLen s := segLen_pos hne
  have hpx := abs_perpX_le_one (s := s) hp
  have hpy := abs_perpY_le_one (s := s) hp
  have heq : offsetStep s off =
      ⟨s.fx + ⌊perpX s * (off : ℝ)⌋, s.fy + ⌊perpY s * (off : ℝ)⌋,
       s.tx + ⌊perpX s * (off : ℝ)⌋, s.ty + ⌊perpY s * (off : ℝ)⌋⟩ := by
    rw [offsetStep, if_neg hoff, if_pos hp]
    rw [pyIntR_nonneg_eq (add_perp_nonneg hpx off s.fx hfx),
        pyIntR_nonneg_eq (add_perp_nonneg hpy off s.fy hfy),
        pyIntR_nonneg_eq (add_perp_nonneg hpx off s.tx htx),
        pyIntR_nonneg_eq (add_perp_nonneg hpy off s.ty hty),
        Int.floor_int_add, Int.floor_int_add, Int.floor_int_add, Int.floor_int_add]
  have hunit : perpX s ^ 2 + perpY s ^ 2 = 1 := by
    have hL := segLen_mul_self (s := s)
    have hL0 : segLen s ≠ 0 := ne_of_gt hp
    rw [perpX, perpY]
    field_simp
    linear_combination (-1 : ℝ) * hL
  refine ⟨heq, hunit, ?_, ?_⟩ <;> rw [heq] <;> dsimp <;> ring

/-- Witness for `offsetStep_uniform_translation` on the segment
(10,10)-(14,13) with offset 1. -/
theorem offsetStep_uniform_translation_witness :
    ((10 : ℤ), (10 : ℤ)) ≠ ((14 : ℤ), (13 : ℤ)) ∧ (1 : ℤ) ≠ 0 ∧
    |(1 : ℤ)| ≤ 10 ∧ |(1 : ℤ)| ≤ 14 ∧ |(1 : ℤ)| ≤ 13 ∧
    (offsetStep ⟨10, 10, 14, 13⟩ 1 =
      ⟨10 + ⌊perpX ⟨10, 10, 14, 13⟩ * ((1 : ℤ) : ℝ)⌋,
       10 + ⌊perpY ⟨10, 10, 14, 13⟩ * ((1 : ℤ) : ℝ)⌋,
       14 + ⌊perpX ⟨10, 10, 14, 13⟩ * ((1 : ℤ) : ℝ)⌋,
       13 + ⌊perpY ⟨10, 10, 14, 13⟩ * ((1 : ℤ) : ℝ)⌋⟩ ∧
     perpX ⟨10, 10, 14, 13⟩ ^ 2 + perpY ⟨10, 10, 14, 13⟩ ^ 2 = 1 ∧
     (offsetStep ⟨10, 10, 14, 13⟩ 1).tx - (offsetStep ⟨10, 10, 14, 13⟩ 1).fx = 14 - 10 ∧
     (offsetStep ⟨10, 10, 14, 13⟩ 1).ty - (offsetStep ⟨10, 10, 14, 13⟩ 1).fy = 13 - 10) :=
  ⟨by decide, by decide, by decide, by decide, by decide,
   offsetStep_uniform_translation ⟨10, 10, 14, 13⟩ 1 (by decide) (by decide)
     (by decide) (by decide) (by decide) (by decide)⟩

theorem shortenStep_degen (a b : ℤ) (r : ℚ) :
    shortenStep ⟨a, b, a, b⟩ r = ⟨a, b, a, b⟩ := by
  rw [shortenStep]
  split
  · have hx : ((a : ℚ) + (a : ℚ)) / 2 + ((a : ℚ) - ((a : ℚ) + (a : ℚ)) / 2) * r = (a : ℚ) := by
      ring
    have hy : ((b : ℚ) + (b : ℚ)) / 2 + ((b : ℚ) - ((b : ℚ) + (b : ℚ)) / 2) * r = (b : ℚ) := by
      ring
    simp only [hx, hy, pyIntQ_intCast]
  · rfl

theorem segLen_degen (a b : ℤ) : segLen ⟨a, b, a, b⟩ = 0 := by
  rw [segLen]
  norm_num

theorem offsetStep_degen (a b : ℤ) (off : ℤ) :
    offsetStep ⟨a, b, a, b⟩ off = ⟨a, b, a, b⟩ := by
  rw [offsetStep]
  split
  · rfl
  · rw [if_neg]
    rw [segLen_degen]
    norm_num

theorem dashOps_degen (x y w d : ℤ) : dashOps x y x y w d = [] := by
  rw [dashOps]
  norm_num

/-- At a degenerate (zero-length) segment `math.atan2(0, 0) = 0`, so the
arrow head is the triangle (25,25), (9,34), (9,16) in canvas
coordinates. -/
theorem headOp_degen : headOp 25 25 25 25 18 = DrawOp.polygon (25, 25) (9, 34) (9, 16) := by
  have hang : atan2R ((25 - 25 : ℤ) : ℝ) ((25 - 25 : ℤ) : ℝ) = 0 := by
    rw [atan2R]
    push_cast
    rw [show (⟨0, 0⟩ : ℂ) = 0 from Complex.ext rfl rfl]
    exact Complex.arg_zero
  have h1 : (5 / 3 : ℝ) < Real.sqrt 3 := by
    rw [show (5 / 3 : ℝ) = Real.sqrt ((5 / 3) ^ 2) by rw [Real.sqrt_sq (by norm_num)]]
    apply Real.sqrt_lt_sqrt (by positivity)
    norm_num
  have h2 : Real.sqrt 3 < 16 / 9 := by
    rw [show (16 / 9 : ℝ) = Real.sqrt ((16 / 9) ^ 2) by rw [Real.sqrt_sq (by norm_num)]]
    apply Real.sqrt_lt_sqrt (by norm_num)
    norm_num
  rw [headOp, hang]
  have hcosm : Real.cos (0 - Real.pi / 6) = Real.sqrt 3 / 2 := by
    rw [zero_sub, Real.cos_neg, Real.cos_pi_div_six]
  have hsinm : Real.sin (0 - Real.pi / 6) = -(1 / 2) := by
    rw [zero_sub, Real.sin_neg, Real.sin_pi_div_six]
  have hcosp : Real.cos (0 + Real.pi / 6) = Real.sqrt 3 / 2 := by
    rw [zero_add, Real.cos_pi_div_six]
  have hsinp : Real.sin (0 + Real.pi / 6) = 1 / 2 := by
    rw [zero_add, Real.sin_pi_div_six]
  rw [hcosm, hsinm, hcosp, hsinp]
  have hx : pyIntR ((25 : ℤ) - (18 : ℤ) * (Real.sqrt 3 / 2)) = 9 := by
    rw [pyIntR_nonneg_eq (by push_cast; nlinarith)]
    rw [Int.floor_eq_iff]
    constructor
    · push_cast
      nlinarith
    · push_cast
      nlinarith
  have hy1 : pyIntR ((25 : ℤ) - (18 : ℤ) * -(1 / 2)) = 34 := by
    rw [pyIntR_nonneg_eq (by push_cast; norm_num)]
    push_cast
    norm_num
  have hy2 : pyIntR ((25 : ℤ) - (18 : ℤ) * (1 / 2)) = 16 := by
    rw [pyIntR_nonneg_eq (by push_cast; norm_num)]
    push_cast
    norm_num
  push_cast at hx hy1 hy2 ⊢
  rw [hx, hy1, hy2]

/-- Full evaluation of the arrow renderer on a zero-length segment: no
division by zero occurs (the offset and dash logic are skipped because
the length is 0), the canvas is 50x50 (25px padding on each side of the
degenerate segment, above the enforced 40x40 minimum), the anchor is the
degenerate point itself, and the size-18 arrow head triangle is still
drawn. -/
theorem createArrow_degen_eval (fx fy : ℤ) (color : String) (dashed : Bool)
    (off : ℤ) (r : ℚ) :
    createArrowImage fx fy fx fy color dashed off r =
      (⟨50, 50, color, dashed,
        (if dashed then ([] : List DrawOp) else [DrawOp.line 25 25 25 25 5])
          ++ [DrawOp.polygon (25, 25) (9, 34) (9, 16)]⟩, fx, fy) := by
  simp only [createArrowImage, shortenStep_degen, offsetStep_degen, min_self, max_self]
  have hw : ∀ a : ℤ, max (a + 25 - (a - 25)) 40 = 50 := fun a => by omega
  have hl : ∀ a : ℤ, a - (a - 25) = 25 := fun a => by omega
  simp only [hw, hl]
  rw [dashOps_degen, headOp_degen]
  have hdiv : (50 : ℤ).ediv 2 = 25 := by decide
  rw [hdiv]
  have hanch : ∀ a : ℤ, a - 25 + 25 = a := fun a => by omega
  simp only [hanch]

/-- Claim C3 (amended): for an arrow request whose origin equals its
destination, `_create_arrow_image` returns normally with no division by
zero (the perpendicular-offset and dash logic are skipped because the
length is 0), but the returned image measures 50x50 — the 25px padding on
each side of the degenerate segment, not the enforced 40x40 minimum — and
it is NOT fully transparent: the size-18 arrow head triangle
(25,25)-(9,34)-(9,16) is still drawn into it. -/
theorem createArrowImage_zero_length (fx fy : ℤ) (color : String) (dashed : Bool)
    (off : ℤ) (r : ℚ) :
    createArrowImage fx fy fx fy color dashed off r =
      (⟨50, 50, color, dashed,
        (if dashed then ([] : List DrawOp) else [DrawOp.line 25 25 25 25 5])
          ++ [DrawOp.polygon (25, 25) (9, 34) (9, 16)]⟩, fx, fy) ∧
    DrawOp.polygon (25, 25) (9, 34) (9, 16)
      ∈ (createArrowImage fx fy fx fy color dashed off r).1.ops := by
  refine ⟨createArrow_degen_eval fx fy color dashed off r, ?_⟩
  rw [createArrow_degen_eval]
  simp

/-- Claim C3, counterexample: a zero-length dashed (ball) arrow request
yields a 50x50 image, not the claimed 40x40, and its canvas is not fully
transparent (the arrow head polygon is drawn). -/
theorem createArrowImage_zero_length_counterexample :
    (createArrowImage 100 100 100 100 "orange" true 6 (3 / 4)).1.w = 50 ∧
    ¬ (createArrowImage 100 100 100 100 "orange" true 6 (3 / 4)).1.w = 40 ∧
    (createArrowImage 100 100 100 100 "orange" true 6 (3 / 4)).1.ops ≠ [] := by
  rw [createArrow_degen_eval]
  refine ⟨rfl, by norm_num, by simp⟩

/-- Evaluation of the compositor on a step whose positions dict builds
successfully: helper shared by the claims about skipping and errors. -/
theorem composeStepSeparate_ok (W H : ℕ) (pl : List PlayerJ) (ms : List MoveJ)
    (bm : Option (List BallJ)) (posMap : List (String × PosJ))
    (hpos : buildPositions pl = .ok posMap) :
    composeStepSeparate W H ⟨some pl, some ms, bm⟩ =
      .ok (Bundle.mk W H (pl.map (playerOverlayOf W H))
        (((bm.getD []).map (ballArrowOf W H))
          ++ ms.filterMap (playerArrowOf W H posMap))) := by
  simp only [composeStepSeparate, Option.getD_some, hpos]

/-- Claim C7: a player movement whose `from_player` does not resolve in
the step's positions dict is silently skipped: the compositor raises no
error (it returns an `ok` bundle) and produces exactly the bundle it
would produce if that movement were absent — no arrow overlay for it,
everything else unchanged. -/
theorem composeStepSeparate_skips_unresolvable (W H : ℕ) (pl : List PlayerJ)
    (bm : Option (List BallJ)) (ms1 ms2 : List MoveJ) (bad : MoveJ)
    (posMap : List (String × PosJ))
    (hpos : buildPositions pl = .ok posMap)
    (hskip : dictLookup posMap (bad.from_player.getD "") = none) :
    composeStepSeparate W H ⟨some pl, some (ms1 ++ bad :: ms2), bm⟩ =
      composeStepSeparate W H ⟨some pl, some (ms1 ++ ms2), bm⟩ ∧
    ∃ b : Bundle, composeStepSeparate W H ⟨some pl, some (ms1 ++ bad :: ms2), bm⟩ =
      .ok b := by
  have hbad : playerArrowOf W H posMap bad = none := by
    rw [playerArrowOf, hskip]
    rfl
  constructor
  · rw [composeStepSeparate_ok W H pl (ms1 ++ bad :: ms2) bm posMap hpos,
      composeStepSeparate_ok W H pl (ms1 ++ ms2) bm posMap hpos,
      List.filterMap_append, List.filterMap_append, List.filterMap_cons, hbad]
  · exact ⟨_, composeStepSeparate_ok W H pl (ms1 ++ bad :: ms2) bm posMap hpos⟩

/-- Witness for `composeStepSeparate_skips_unresolvable`: one player "A"
at (0.5, 0.5) and one movement whose origin "B" is unknown. -/
theorem composeStepSeparate_skips_unresolvable_witness :
    buildPositions [⟨some "A", some ⟨some (1 / 2), some (1 / 2)⟩⟩] =
      .ok [("A", ⟨some (1 / 2), some (1 / 2)⟩)] ∧
    dictLookup [("A", ⟨some (1 / 2), some (1 / 2)⟩)]
      ((⟨some "B", some ⟨some (7 / 10), some (1 / 2)⟩⟩ : MoveJ).from_player.getD "") = none ∧
    (composeStepSeparate 1000 600
        ⟨some [⟨some "A", some ⟨some (1 / 2), some (1 / 2)⟩⟩],
         some ([] ++ (⟨some "B", some ⟨some (7 / 10), some (1 / 2)⟩⟩ : MoveJ) :: []),
         some []⟩ =
      composeStepSeparate 1000 600
        ⟨some [⟨some "A", some ⟨some (1 / 2), some (1 / 2)⟩⟩], some ([] ++ []), some []⟩ ∧
     ∃ b : Bundle, composeStepSeparate 1000 600
        ⟨some [⟨some "A", some ⟨some (1 / 2), some (1 / 2)⟩⟩],
         some ([] ++ (⟨some "B", some ⟨some (7 / 10), some (1 / 2)⟩⟩ : MoveJ) :: []),
         some []⟩ = .ok b) :=
  ⟨rfl, rfl,
   composeStepSeparate_skips_unresolvable 1000 600
     [⟨some "A", some ⟨some (1 / 2), some (1 / 2)⟩⟩] (some []) [] []
     ⟨some "B", some ⟨some (7 / 10), some (1 / 2)⟩⟩
     [("A", ⟨some (1 / 2), some (1 / 2)⟩)] rfl rfl⟩

/-- Claim C8: the compositor defaults absent optional collections — a
step with no `players`, `movements` or `ball_movements` keys composes to
the empty bundle — but it does NOT always default missing fields of a
players-list element: an entry lacking "id" (or "position") makes the
dict comprehension `{p["id"]: p["position"] ...}` raise a KeyError
instead of returning normally. -/
theorem composeStepSeparate_missing_fields :
    composeStepSeparate 1000 600 ⟨none, none, none⟩ =
      .ok (Bundle.mk 1000 600 [] []) ∧
    composeStepSeparate 1000 600 ⟨some [⟨none, none⟩], none, none⟩ =
      .error "KeyError" := by
  constructor
  · simp only [composeStepSeparate, Option.getD_none, buildPositions]
    rfl
  · simp only [composeStepSeparate, Option.getD_none, Option.getD_some, buildPositions]

theorem shorten_ball_eval : shortenStep ⟨500, 300, 300, 300⟩ (3 / 4) = ⟨475, 300, 325, 300⟩ := by
  simp only [shortenStep]
  norm_num [pyIntQ, Seg.mk.injEq]

theorem shorten_player_eval : shortenStep ⟨500, 300, 700, 300⟩ (3 / 4) = ⟨525, 300, 675, 300⟩ := by
  simp only [shortenStep]
  norm_num [pyIntQ, Seg.mk.injEq]

theorem segLen_ball_eval : segLen ⟨475, 300, 325, 300⟩ = 150 := by
  rw [segLen]
  push_cast
  norm_num
  rw [show (22500 : ℝ) = 150 ^ 2 by norm_num]
  exact Real.sqrt_sq (by norm_num)

theorem segLen_player_eval : segLen ⟨525, 300, 675, 300⟩ = 150 := by
  rw [segLen]
  push_cast
  norm_num
  rw [show (22500 : ℝ) = 150 ^ 2 by norm_num]
  exact Real.sqrt_sq (by norm_num)

theorem offset_ball_eval : offsetStep ⟨475, 300, 325, 300⟩ 6 = ⟨475, 294, 325, 294⟩ := by
  have hpx : perpX ⟨475, 300, 325, 300⟩ = 0 := by
    rw [perpX, segLen_ball_eval]
    push_cast
    norm_num
  have hpy : perpY ⟨475, 300, 325, 300⟩ = -1 := by
    rw [perpY, segLen_ball_eval]
    push_cast
    norm_num
  rw [offsetStep, if_neg (by norm_num : ¬(6 : ℤ) = 0),
    if_pos (by rw [segLen_ball_eval]; norm_num : (0 : ℝ) < segLen ⟨475, 300, 325, 300⟩)]
  rw [hpx, hpy]
  norm_num [pyIntR, Seg.mk.injEq]

theorem offset_player_eval : offsetStep ⟨525, 300, 675, 300⟩ (-6) = ⟨525, 294, 675, 294⟩ := by
  have hpx : perpX ⟨525, 300, 675, 300⟩ = 0 := by
    rw [perpX, segLen_player_eval]
    push_cast
    norm_num
  have hpy : perpY ⟨525, 300, 675, 300⟩ = 1 := by
    rw [perpY, segLen_player_eval]
    push_cast
    norm_num
  rw [offsetStep, if_neg (by norm_num : ¬(-6 : ℤ) = 0),
    if_pos (by rw [segLen_player_eval]; norm_num : (0 : ℝ) < segLen ⟨525, 300, 675, 300⟩)]
  rw [hpx, hpy]
  norm_num [pyIntR, Seg.mk.injEq]

theorem arrow_ball_anchor :
    (createArrowImage 500 300 300 300 "orange" true 6 (3 / 4)).2 = (400, 294) := by
  simp only [createArrowImage, shorten_ball_eval, offset_ball_eval]
  decide

theorem arrow_player_anchor :
    (createArrowImage 500 300 700 300 "blue" false (-6) (3 / 4)).2 = (600, 294) := by
  simp only [createArrowImage, shorten_player_eval, offset_player_eval]
  decide

/-- Full anchor evaluation of the end-to-end scenario on the 1000x600
ground: one player overlay at (500, 300), the ball arrow (first, dashed
orange) anchored at (400, 294) and the player arrow (solid blue) anchored
at (600, 294). -/
theorem composeStepSeparate_stepC1_eval :
    (composeStepSeparate 1000 600 stepC1).map
        (fun b => (playerAnchors b, arrowAnchors b)) =
      .ok ([(500, 300, "A")],
        [(ArrowType.ball, 400, 294), (ArrowType.player, 600, 294)]) := by
  rw [show stepC1 =
      ⟨some [⟨some "A", some ⟨some (1 / 2), some (1 / 2)⟩⟩],
       some [⟨some "A", some ⟨some (7 / 10), some (1 / 2)⟩⟩],
       some [⟨some ⟨some (1 / 2), some (1 / 2)⟩, some ⟨some (3 / 10), some (1 / 2)⟩⟩]⟩
    from rfl]
  rw [composeStepSeparate_ok 1000 600
    [⟨some "A", some ⟨some (1 / 2), some (1 / 2)⟩⟩]
    [⟨some "A", some ⟨some (7 / 10), some (1 / 2)⟩⟩]
    (some [⟨some ⟨some (1 / 2), some (1 / 2)⟩, some ⟨some (3 / 10), some (1 / 2)⟩⟩])
    [("A", ⟨some (1 / 2), some (1 / 2)⟩)] rfl]
  simp only [Except.map, playerAnchors, arrowAnchors, List.map_append,
    List.map_cons, List.map_nil, Option.getD_some, List.filterMap_cons,
    List.filterMap_nil]
  norm_num [playerOverlayOf, ballArrowOf, playerArrowOf, dictLookup, posXY,
    relToPixel, pyIntQ, arrow_ball_anchor, arrow_player_anchor]

/-- Claim C1, counterexample: in the end-to-end scenario the dashed
orange ball arrow overlay is anchored at y = 294, not at
300 + 6 = 306 as claimed — the ball segment points leftward, so its
perpendicular unit normal points up and the +6 offset moves it the same
way (-6 in y) as the player arrow. -/
theorem composeStepSeparate_stepC1_ball_not_306 :
    (composeStepSeparate 1000 600 stepC1).map
        (fun b => (arrowAnchors b).filter (fun a => a.1 = ArrowType.ball)) =
      .ok [(ArrowType.ball, 400, 294)] ∧
    (294 : ℤ) ≠ 306 := by
  constructor
  · rw [show stepC1 =
        ⟨some [⟨some "A", some ⟨some (1 / 2), some (1 / 2)⟩⟩],
         some [⟨some "A", some ⟨some (7 / 10), some (1 / 2)⟩⟩],
         some [⟨some ⟨some (1 / 2), some (1 / 2)⟩, some ⟨some (3 / 10), some (1 / 2)⟩⟩]⟩
      from rfl]
    rw [composeStepSeparate_ok 1000 600
      [⟨some "A", some ⟨some (1 / 2), some (1 / 2)⟩⟩]
      [⟨some "A", some ⟨some (7 / 10), some (1 / 2)⟩⟩]
      (some [⟨some ⟨some (1 / 2), some (1 / 2)⟩, some ⟨some (3 / 10), some (1 / 2)⟩⟩])
      [("A", ⟨some (1 / 2), some (1 / 2)⟩)] rfl]
    simp only [Except.map, arrowAnchors, List.map_append, List.map_cons,
      List.map_nil, Option.getD_some, List.filterMap_cons, List.filterMap_nil]
    norm_num [ballArrowOf, playerArrowOf, dictLookup, posXY, relToPixel,
      pyIntQ, arrow_ball_anchor, arrow_player_anchor, List.filter]
    decide
  · norm_num

/-- Claim C1 (amended): composing the scenario step against the 1000x600
ground yields exactly one player overlay anchored at (500, 300), exactly
one solid blue arrow overlay (type player) with anchor x = 600 strictly
between 500 and 700 and anchor y = 300 - 6 = 294, and exactly one dashed
orange arrow overlay (type ball) — but the ball arrow's anchor
y-coordinate is ALSO 294 = 300 - 6 (at x = 400), not 306: because the
ball segment points in the opposite direction, its +6 offset along its
own unit normal displaces it to the same side as the player arrow. -/
theorem composeStepSeparate_end_to_end :
    (composeStepSeparate 1000 600 stepC1).map
        (fun b => (playerAnchors b, arrowAnchors b)) =
      .ok ([(500, 300, "A")],
        [(ArrowType.ball, 400, 294), (ArrowType.player, 600, 294)]) ∧
    (500 : ℤ) < 600 ∧ (600 : ℤ) < 700 ∧ (294 : ℤ) = 300 - 6 :=
  ⟨composeStepSeparate_stepC1_eval, by norm_num, by norm_num, by norm_num⟩

theorem grows_refl {n : ℕ} {h : Heap} (hn : n ≤ h.length) : Grows n h h :=
  ⟨hn, fun _ _ => rfl⟩

theorem grows_trans {n : ℕ} {h h2 h3 : Heap} (a : Grows n h h2) (b : Grows n h2 h3) :
    Grows n h h3 :=
  ⟨b.1, fun i hi => (b.2 i hi).trans (a.2 i hi)⟩

theorem grows_alloc {n : ℕ} {h : Heap} (hn : n ≤ h.length) (v : HImg) :
    Grows n h (h ++ [v]) := by
  refine ⟨by simp; omega, fun i hi => ?_⟩
  exact List.getElem?_append_left (lt_of_lt_of_le hi hn)

theorem grows_set_ge {n j : ℕ} {h : Heap} (hn : n ≤ h.length) (hj : n ≤ j) (v : HImg) :
    Grows n h (hset h j v) := by
  refine ⟨by simp [hset]; omega, fun i hi => ?_⟩
  exact List.getElem?_set_ne (by omega)

theorem createArrowHeap_grows {n : ℕ} {h : Heap} (hn : n ≤ h.length) (ps : List ℤ) :
    Grows n h (createArrowHeap h ps).1 := by
  rw [createArrowHeap]
  exact grows_trans (grows_alloc hn ⟨[]⟩)
    (grows_set_ge (by simp; omega) (by simp [halloc]; omega) ⟨ps⟩)

theorem labeledPlayerHeap_grows {n : ℕ} {h : Heap} (hn : n ≤ h.length)
    (pr : ℕ) (label : String) :
    Grows n h (labeledPlayerHeap h pr label).1 := by
  rw [labeledPlayerHeap]
  exact grows_trans (grows_alloc hn ⟨[]⟩)
    (grows_set_ge (by simp; omega) (by simp [halloc]; omega) _)

theorem foldl_grows {α : Type} {n : ℕ} {h0 : Heap}
    (f : Heap × List ℕ → α → Heap × List ℕ)
    (hf : ∀ s a, n ≤ s.1.length → Grows n s.1 (f s a).1) :
    ∀ (l : List α) (init : Heap × List ℕ), Grows n h0 init.1 →
      Grows n h0 (l.foldl f init).1 := by
  intro l
  induction l with
  | nil => intro init hinit; exact hinit
  | cons a l ih =>
    intro init hinit
    exact ih (f init a) (grows_trans hinit (hf init a hinit.1))

theorem grows_hget {n i : ℕ} {h h2 : Heap} (hg : Grows n h h2) (hi : i < n) :
    hget h2 i = hget h i := by
  rw [hget, hget, List.getD_eq_getElem?_getD, List.getD_eq_getElem?_getD, hg.2 i hi]

theorem grows_mono {m n : ℕ} {h h2 : Heap} (hmn : m ≤ n) (hg : Grows n h h2) :
    Grows m h h2 :=
  ⟨le_trans hmn hg.1, fun i hi => hg.2 i (lt_of_lt_of_le hi hmn)⟩

theorem hget_concat (h : Heap) (v : HImg) : hget (h ++ [v]) h.length = v := by
  rw [hget, List.getD_eq_getElem?_getD, List.getElem?_concat_length]
  rfl

/-- The whole heap effect of one compose call only appends fresh cells
and writes into them: every cell of the extended heap
`h ++ [ground copy]` survives untouched. -/
theorem composeStepHeap_final_grows (h : Heap) (gr pr W H : ℕ) (step : StepJ) :
    Grows (h.length + 1) (h ++ [hget h gr]) (composeStepHeap h gr pr W H step).1 := by
  cases hb : buildPositions (step.players.getD []) with
  | error e =>
    simp only [composeStepHeap, halloc, hb]
    apply foldl_grows _ ?_ _ _ (grows_refl (by simp))
    intro s a hs
    exact createArrowHeap_grows hs _
  | ok posMap =>
    simp only [composeStepHeap, halloc, hb]
    apply foldl_grows _ ?_ _ _ ?_
    · intro s a hs
      exact labeledPlayerHeap_grows hs _ _
    · apply foldl_grows _ ?_ _ _ ?_
      · intro s a hs
        cases hd : dictLookup posMap (a.from_player.getD "") with
        | none => exact grows_refl hs
        | some pos => exact createArrowHeap_grows hs _
      · apply foldl_grows _ ?_ _ _ (grows_refl (by simp))
        intro s a hs
        exact createArrowHeap_grows hs _

/-- Claim C10: one compose call never mutates the shared base assets —
the stored ground image (cell `gr`) and person image (cell `pr`) are
identical before and after — and the ground placed in the returned
bundle is a fresh, unaliased copy: its reference differs from `gr` (and
`pr`) while its contents equal the stored ground's. -/
theorem composeStepHeap_preserves_assets (h : Heap) (gr pr W H : ℕ) (step : StepJ)
    (hgr : gr < h.length) (hpr : pr < h.length) :
    hget (composeStepHeap h gr pr W H step).1 gr = hget h gr ∧
    hget (composeStepHeap h gr pr W H step).1 pr = hget h pr ∧
    ∀ g arrows players,
      (composeStepHeap h gr pr W H step).2 = .ok (g, arrows, players) →
      g ≠ gr ∧ g ≠ pr ∧ hget (composeStepHeap h gr pr W H step).1 g = hget h gr := by
  have hfin := composeStepHeap_final_grows h gr pr W H step
  have hh1 : Grows h.length h (h ++ [hget h gr]) := grows_alloc le_rfl _
  have hall : Grows h.length h (composeStepHeap h gr pr W H step).1 :=
    grows_trans hh1 (grows_mono (by omega) hfin)
  refine ⟨grows_hget hall hgr, grows_hget hall hpr, ?_⟩
  intro g arrows players hok
  have hg : g = h.length := by
    cases hb : buildPositions (step.players.getD []) with
    | error e =>
      simp only [composeStepHeap, halloc, hb] at hok
      exact absurd hok (by simp)
    | ok posMap =>
      simp only [composeStepHeap, halloc, hb, Except.ok.injEq, Prod.mk.injEq] at hok
      exact hok.1.symm
  subst hg
  refine ⟨by omega, by omega, ?_⟩
  have hcopy : hget (composeStepHeap h gr pr W H step).1 h.length
      = hget (h ++ [hget h gr]) h.length := grows_hget hfin (by omega)
  rw [hcopy, hget_concat]

/-- Witness for `composeStepHeap_preserves_assets`: a two-cell heap
(ground at 0, person at 1) and the empty step. -/
theorem composeStepHeap_preserves_assets_witness :
    (0 : ℕ) < (([⟨[1]⟩, ⟨[2]⟩] : Heap)).length ∧
    (1 : ℕ) < (([⟨[1]⟩, ⟨[2]⟩] : Heap)).length ∧
    (hget (composeStepHeap [⟨[1]⟩, ⟨[2]⟩] 0 1 1000 600 ⟨none, none, none⟩).1 0
        = hget [⟨[1]⟩, ⟨[2]⟩] 0 ∧
     hget (composeStepHeap [⟨[1]⟩, ⟨[2]⟩] 0 1 1000 600 ⟨none, none, none⟩).1 1
        = hget [⟨[1]⟩, ⟨[2]⟩] 1 ∧
     ∀ g arrows players,
       (composeStepHeap [⟨[1]⟩, ⟨[2]⟩] 0 1 1000 600 ⟨none, none, none⟩).2
          = .ok (g, arrows, players) →
       g ≠ 0 ∧ g ≠ 1 ∧
       hget (composeStepHeap [⟨[1]⟩, ⟨[2]⟩] 0 1 1000 600 ⟨none, none, none⟩).1 g
          = hget [⟨[1]⟩, ⟨[2]⟩] 0) :=
  ⟨by decide, by decide,
   composeStepHeap_preserves_assets [⟨[1]⟩, ⟨[2]⟩] 0 1 1000 600 ⟨none, none, none⟩
     (by decide) (by decide)⟩

/-- Evaluation of the compositor on the all-defaults (empty) step. -/
theorem composeStepSeparate_empty (W H : ℕ) :
    composeStepSeparate W H ⟨none, none, none⟩ = .ok (Bundle.mk W H [] []) := by
  simp only [composeStepSeparate, Option.getD_none, buildPositions]
  rfl

/-- Claim C9: on the success path the generator's temp-file list is
cleared, but on the failure path where `save` raises AFTER the sheet
recorded temp rasters, `generate_practice_menu` skips `cleanup()` (no
try/finally) and the recorded temp file remains. -/
theorem generatePracticeMenu_leaks_on_save_failure :
    (generatePracticeMenu ⟨[], []⟩ (.ok [⟨none, none, none⟩]) 1000 600 true).1.temp_files
      = [] ∧
    (generatePracticeMenu ⟨[], []⟩ (.ok [⟨none, none, none⟩]) 1000 600 false).1.temp_files
      = ["step_0_ground.png"] ∧
    (["step_0_ground.png"] : List String) ≠ [] := by
  have hmap : ([⟨none, none, none⟩] : List StepJ).mapM (composeStepSeparate 1000 600)
      = .ok [Bundle.mk 1000 600 [] []] := by
    rw [List.mapM_cons, composeStepSeparate_empty]
    rfl
  refine ⟨?_, ?_, by simp⟩
  · simp only [generatePracticeMenu, hmap]
    rfl
  · simp only [generatePracticeMenu, hmap]
    rfl
